import Mathlib

/-!
A shallow embedding of the Synacor challenge virtual machine
(`src/main.rs`).  Machine words are modelled as `Nat`; every place where
the Rust code performs a narrowing cast (`as u16`, `as u8`) the model
reduces modulo `65536` resp. `256` explicitly.  Fallible Rust code
(`Result<_, String>`) becomes `Except String _`; a Rust panic (integer
remainder by zero, out-of-bounds slice indexing) is modelled as a
distinct `panic` outcome, since a panic aborts the process rather than
returning an `Err` to the caller.
-/

namespace Synacor

/-- The 22 opcodes (`enum Op` in `main.rs`), in source order; their
discriminants 0..21 are realised by `Op.tryFrom`. -/
inductive Op
  | Halt | Set | Push | Pop | Eq | Gt | Jmp | Jt | Jf | Add | Mult
  | Mod | And | Or | Not | Rmem | Wmem | Call | Ret | Out | In | Noop
  deriving DecidableEq

/-- `impl TryFrom<u16> for Op`: values 0..=21 map to opcodes, anything
else is rejected with an unknown-op-code error. -/
def Op.tryFrom : Nat → Except String Op
  | 0 => .ok .Halt
  | 1 => .ok .Set
  | 2 => .ok .Push
  | 3 => .ok .Pop
  | 4 => .ok .Eq
  | 5 => .ok .Gt
  | 6 => .ok .Jmp
  | 7 => .ok .Jt
  | 8 => .ok .Jf
  | 9 => .ok .Add
  | 10 => .ok .Mult
  | 11 => .ok .Mod
  | 12 => .ok .And
  | 13 => .ok .Or
  | 14 => .ok .Not
  | 15 => .ok .Rmem
  | 16 => .ok .Wmem
  | 17 => .ok .Call
  | 18 => .ok .Ret
  | 19 => .ok .Out
  | 20 => .ok .In
  | 21 => .ok .Noop
  | _ => .error "received unknown op code"

/-- `enum Arg`: an operand is a literal word or a register index. -/
inductive Arg
  | Literal (value : Nat)
  | Register (reg : Nat)
  deriving DecidableEq

/-- `impl TryFrom<u16> for Arg`: 0..=32767 are literals, 32768..=32775
are registers 0..=7, anything larger is an invalid encoding. -/
def Arg.tryFrom (value : Nat) : Except String Arg :=
  if value ≤ 32767 then .ok (.Literal value)
  else if value ≤ 32775 then .ok (.Register (value - 32768))
  else .error "unable to convert value to argument"

/-- `struct Instruction`: an opcode and up to three operands. -/
structure Instruction where
  op : Op
  a : Option Arg
  b : Option Arg
  c : Option Arg
  deriving DecidableEq

/-- `const MEMORY_SIZE: usize = 0b0111_1111_1111_1111` (= 32767, one
less than the nominal 15-bit address space). -/
def MEMORY_SIZE : Nat := 0b0111111111111111

/-- `struct VM`.  `memory` is `[u16; MEMORY_SIZE]` in Rust; here a list
whose length is `MEMORY_SIZE` for every machine built by `VM.load`.
`registers` is `[u16; 8]`, `stack` a `Vec<u16>` with its top modelled at
the head of the list, `pc` the `usize` program counter. -/
structure VM where
  memory : List Nat
  registers : List Nat
  stack : List Nat
  pc : Nat
  deriving DecidableEq

/-- `VM::new`: zeroed memory and registers, empty stack, pc 0. -/
def VM.new : VM :=
  { memory := List.replicate MEMORY_SIZE 0
    registers := List.replicate 8 0
    stack := []
    pc := 0 }

/-- The pairing loop of `VM::load`: `bytes.chunks(2).zip(memory)`.
`cap` is the number of memory cells still available for the zip; when it
reaches 0 the zip stops, silently discarding any remaining bytes (a
residual single byte included).  While capacity remains, a full chunk
`[lo, hi]` becomes the little-endian word `(hi << 8) | lo` and a
residual single byte is a load failure. -/
def loadPairs : List Nat → Nat → Except String (List Nat)
  | _, 0 => .ok []
  | [], _ + 1 => .ok []
  | [_], _ + 1 => .error "failed to load file"
  | lo :: hi :: rest, cap + 1 =>
    match loadPairs rest cap with
    | .error e => .error e
    | .ok ws => .ok (((hi <<< 8) ||| lo) :: ws)

/-- `VM::new()` followed by `VM::load(bytes)`: the decoded words
overwrite the front of the zero-initialised memory. -/
def VM.load (bytes : List Nat) : Except String VM :=
  match loadPairs bytes MEMORY_SIZE with
  | .error e => .error e
  | .ok ws => .ok { VM.new with memory := ws ++ List.replicate (MEMORY_SIZE - ws.length) 0 }

/-- `VM::read_next`: fetch `memory[pc]` (failing when `pc` is out of
range) and advance `pc`. -/
def VM.read_next (vm : VM) : Except String (Nat × VM) :=
  match vm.memory.get? vm.pc with
  | some value => .ok (value, { vm with pc := vm.pc + 1 })
  | none => .error "failed to get next u16"

/-- `VM::read_argument`: `read_next` then `Arg::try_from`. -/
def VM.read_argument (vm : VM) : Except String (Arg × VM) :=
  match vm.read_next with
  | .error e => .error e
  | .ok (value, vm1) =>
    match Arg.tryFrom value with
    | .error e => .error e
    | .ok arg => .ok (arg, vm1)

/-- `VM::read_instruction`: read the opcode word, then the opcode's
fixed number of operand words (0, 1, 2 or 3, grouped exactly as the
`match` in the source). -/
def VM.read_instruction (vm : VM) : Except String (Instruction × VM) :=
  match vm.read_next with
  | .error e => .error e
  | .ok (w, vm1) =>
    match Op.tryFrom w with
    | .error e => .error e
    | .ok op =>
      match op with
      | .Halt | .Noop | .Ret => .ok (⟨op, none, none, none⟩, vm1)
      | .Out | .Jmp | .Push | .Pop | .Call | .In =>
        match vm1.read_argument with
        | .error e => .error e
        | .ok (a, vm2) => .ok (⟨op, some a, none, none⟩, vm2)
      | .Jt | .Jf | .Set | .Not | .Rmem | .Wmem =>
        match vm1.read_argument with
        | .error e => .error e
        | .ok (a, vm2) =>
          match vm2.read_argument with
          | .error e => .error e
          | .ok (b, vm3) => .ok (⟨op, some a, some b, none⟩, vm3)
      | .Add | .Eq | .Gt | .And | .Or | .Mult | .Mod =>
        match vm1.read_argument with
        | .error e => .error e
        | .ok (a, vm2) =>
          match vm2.read_argument with
          | .error e => .error e
          | .ok (b, vm3) =>
            match vm3.read_argument with
            | .error e => .error e
            | .ok (c, vm4) => .ok (⟨op, some a, some b, some c⟩, vm4)

/-- `VM::get_value`: a literal is used as-is, a register operand reads
the register.  Decoding only ever produces register indices 0..=7, so
the Rust indexing `self.registers[reg]` never panics; `getD _ 0` is its
total counterpart. -/
def VM.get_value (vm : VM) : Arg → Nat
  | .Literal value => value
  | .Register reg => vm.registers.getD reg 0

/-- The state coming out of one executed instruction: the new machine,
the characters written to stdout (as character codes), and the input
characters not yet consumed. -/
structure StepOut where
  vm : VM
  output : List Nat
  input : List Nat
  deriving DecidableEq

/-- Outcome of executing one decoded instruction.
  * `next`  — the `run` loop continues (`Noop` is a plain `continue`);
  * `halt`  — normal termination (`Halt`, `Ret` on an empty stack, and
      end of input on `In` all make `run` return `Ok(())`);
  * `error` — an `Err(String)` propagated out of `run`;
  * `panic` — a Rust panic (process abort), which is *not* an `Err`
      returned to the caller. -/
inductive StepResult
  | next (s : StepOut)
  | halt (s : StepOut)
  | error (e : String)
  | panic (e : String)
  deriving DecidableEq

/-- The body of the `match instruction` in `VM::run`, one arm per
pattern, in source order.  `pc` has already been advanced past the
instruction and its operands by `read_instruction`.  Patterns that no
arm matches (e.g. a literal in a destination slot) fall through to the
final catch-all `Err("unable to handle instruction")`. -/
def VM.exec (vm : VM) (inst : Instruction) (input : List Nat) : StepResult :=
  match inst.op, inst.a, inst.b, inst.c with
  | .Halt, _, _, _ => .halt ⟨vm, [], input⟩
  | .Noop, _, _, _ => .next ⟨vm, [], input⟩
  | .Ret, _, _, _ =>
    match vm.stack with
    | value :: rest => .next ⟨{ vm with pc := value, stack := rest }, [], input⟩
    | [] => .halt ⟨vm, [], input⟩
  | .Out, some arg, _, _ =>
    -- Rust: `char::try_from(value as u8)`.  The cast `value as u8`
    -- truncates to the low byte first, and `TryFrom<u8> for char` is the
    -- blanket impl via `From<u8> for char`, which is infallible — so the
    -- `else` error branch in the source is dead code and every value
    -- prints the character with code `value % 256`.
    .next ⟨vm, [vm.get_value arg % 256], input⟩
  | .Jmp, some arg, _, _ => .next ⟨{ vm with pc := vm.get_value arg }, [], input⟩
  | .Push, some arg, _, _ => .next ⟨{ vm with stack := vm.get_value arg :: vm.stack }, [], input⟩
  | .Pop, some (.Register a), _, _ =>
    match vm.stack with
    | value :: rest =>
      .next ⟨{ vm with registers := vm.registers.set a value, stack := rest }, [], input⟩
    | [] => .error "called pop on an empty stack"
  | .Call, some a, _, _ =>
    .next ⟨{ vm with stack := vm.pc % 65536 :: vm.stack, pc := vm.get_value a }, [], input⟩
  | .In, some (.Register reg), _, _ =>
    -- `chars.next()` on the (line-buffered) input; an empty read from
    -- stdin makes `run` return `Ok(())` immediately.  `ch as u16`
    -- truncates the Unicode scalar value to 16 bits.
    match input with
    | ch :: rest => .next ⟨{ vm with registers := vm.registers.set reg (ch % 65536) }, [], rest⟩
    | [] => .halt ⟨vm, [], []⟩
  | .Jt, some a, some b, _ =>
    if vm.get_value a ≠ 0 then .next ⟨{ vm with pc := vm.get_value b }, [], input⟩
    else .next ⟨vm, [], input⟩
  | .Jf, some a, some b, _ =>
    if vm.get_value a = 0 then .next ⟨{ vm with pc := vm.get_value b }, [], input⟩
    else .next ⟨vm, [], input⟩
  | .Set, some (.Register reg), some b, _ =>
    .next ⟨{ vm with registers := vm.registers.set reg (vm.get_value b) }, [], input⟩
  | .Not, some (.Register reg), some b, _ =>
    -- Rust: `!(!0b0111_1111_1111_1111 | value)` on `u16`; `!x` on a
    -- 16-bit value is `65535 ^^^ x`.
    .next ⟨{ vm with registers := vm.registers.set reg (65535 ^^^ (32768 ||| vm.get_value b)) },
      [], input⟩
  | .Rmem, some (.Register reg), some b, _ =>
    -- `self.memory[value]` panics when the address is out of range.
    match vm.memory.get? (vm.get_value b) with
    | some value => .next ⟨{ vm with registers := vm.registers.set reg value }, [], input⟩
    | none => .panic "index out of bounds"
  | .Wmem, some a, some b, _ =>
    if vm.get_value a < vm.memory.length then
      .next ⟨{ vm with memory := vm.memory.set (vm.get_value a) (vm.get_value b) }, [], input⟩
    else .panic "index out of bounds"
  | .Add, some (.Register a), some b, some c =>
    -- `(b + c) % 32768` on `u16`; for 15-bit operands the sum fits u16.
    .next ⟨{ vm with registers := vm.registers.set a ((vm.get_value b + vm.get_value c) % 32768) },
      [], input⟩
  | .Eq, some (.Register a), some b, some c =>
    .next ⟨{ vm with
      registers := vm.registers.set a (if vm.get_value b = vm.get_value c then 1 else 0) },
      [], input⟩
  | .Gt, some (.Register a), some b, some c =>
    .next ⟨{ vm with
      registers := vm.registers.set a (if vm.get_value b > vm.get_value c then 1 else 0) },
      [], input⟩
  | .And, some (.Register a), some b, some c =>
    .next ⟨{ vm with registers := vm.registers.set a (vm.get_value b &&& vm.get_value c) },
      [], input⟩
  | .Or, some (.Register a), some b, some c =>
    .next ⟨{ vm with registers := vm.registers.set a (vm.get_value b ||| vm.get_value c) },
      [], input⟩
  | .Mult, some (.Register a), some b, some c =>
    -- Rust: `(b as u32 * c as u32) as u16 % 32768` — the product is
    -- truncated to 16 bits *before* the reduction modulo 32768.
    .next ⟨{ vm with
      registers := vm.registers.set a ((vm.get_value b * vm.get_value c) % 65536 % 32768) },
      [], input⟩
  | .Mod, some (.Register a), some b, some c =>
    -- Rust `%` with a zero divisor panics; there is no error return.
    if vm.get_value c = 0 then
      .panic "attempt to calculate the remainder with a divisor of zero"
    else
      .next ⟨{ vm with registers := vm.registers.set a (vm.get_value b % vm.get_value c) },
        [], input⟩
  | _, _, _, _ => .error "unable to handle instruction"

/-- One iteration of the `run` loop body: decode, then execute. -/
def VM.step (vm : VM) (input : List Nat) : StepResult :=
  match vm.read_instruction with
  | .error e => .error e
  | .ok (inst, vm1) => vm1.exec inst input

/-- Result of running the machine: `ok` is `run` returning `Ok(())`
(with the final machine and accumulated output), `error` is `Err(_)`,
`panic` a process abort.  `outOfFuel` only signals that the supplied
step budget ran out. -/
inductive RunResult
  | ok (vm : VM) (output : List Nat)
  | error (e : String)
  | panic (e : String)
  | outOfFuel (vm : VM)
  deriving DecidableEq

/-- `VM::run`, fuelled: `while self.pc < self.memory.len()` decode and
execute; leaving the loop (condition false or a `halt` outcome) returns
`Ok(())`. -/
def VM.run (vm : VM) (fuel : Nat) (input output : List Nat) : RunResult :=
  match fuel with
  | 0 => .outOfFuel vm
  | fuel + 1 =>
    if vm.pc < vm.memory.length then
      match vm.step input with
      | .next s => s.vm.run fuel s.input (output ++ s.output)
      | .halt s => .ok s.vm (output ++ s.output)
      | .error e => .error e
      | .panic e => .panic e
    else .ok vm output

/-- All register contents fit in 15 bits. -/
def regsInRange (l : List Nat) : Bool :=
  l.all fun v => v ≤ 32767

/-- The resolved value of an optional operand is at most `k` (trivially
true when the operand is absent). -/
def optValLe (vm : VM) (o : Option Arg) (k : Nat) : Bool :=
  match o with
  | some arg => vm.get_value arg ≤ k
  | none => true

/-- The ten opcodes whose `a` slot is a register destination. -/
def regDestOp : Op → Bool
  | .Set | .Add | .Mult | .Mod | .And | .Or | .Not | .Rmem | .Eq | .Gt => true
  | _ => false

/-! ### Generic unfolding and frame lemmas -/

/-- One unfolding of the fuelled `run` loop. -/
theorem run_succ_eq (vm : VM) (fuel : Nat) (input output : List Nat) :
    vm.run (fuel + 1) input output =
      if vm.pc < vm.memory.length then
        match vm.step input with
        | .next s => s.vm.run fuel s.input (output ++ s.output)
        | .halt s => .ok s.vm (output ++ s.output)
        | .error e => .error e
        | .panic e => .panic e
      else .ok vm output := rfl

/-- Length of a loaded memory: the decoded words padded with zeros up
to `MEMORY_SIZE`. -/
theorem length_pad (ws : List Nat) (h : ws.length ≤ MEMORY_SIZE) :
    (ws ++ List.replicate (MEMORY_SIZE - ws.length) 0).length = MEMORY_SIZE := by
  simp only [List.length_append, List.length_replicate]
  omega

/-- `read_next` only advances `pc`. -/
theorem read_next_frame (vm vm' : VM) (w : Nat) (h : vm.read_next = .ok (w, vm')) :
    vm'.memory = vm.memory ∧ vm'.registers = vm.registers ∧ vm'.stack = vm.stack := by
  unfold VM.read_next at h
  cases hg : vm.memory.get? vm.pc with
  | none => rw [hg] at h; cases h
  | some v => rw [hg] at h; cases h; exact ⟨rfl, rfl, rfl⟩

/-- `read_argument` only advances `pc`. -/
theorem read_argument_frame (vm vm' : VM) (arg : Arg) (h : vm.read_argument = .ok (arg, vm')) :
    vm'.memory = vm.memory ∧ vm'.registers = vm.registers ∧ vm'.stack = vm.stack := by
  unfold VM.read_argument at h
  cases hrn : vm.read_next with
  | error e => simp [hrn] at h
  | ok p =>
    obtain ⟨w, vm1⟩ := p
    simp only [hrn] at h
    cases ht : Arg.tryFrom w with
    | error e => simp [ht] at h
    | ok a =>
      simp only [ht] at h
      cases h
      exact read_next_frame vm vm' w hrn

/-- `read_instruction` only advances `pc`: memory, registers and the
stack come out untouched. -/
theorem read_instruction_frame (vm vm' : VM) (inst : Instruction)
    (h : vm.read_instruction = .ok (inst, vm')) :
    vm'.memory = vm.memory ∧ vm'.registers = vm.registers ∧ vm'.stack = vm.stack := by
  unfold VM.read_instruction at h
  cases hrn : vm.read_next with
  | error e => simp [hrn] at h
  | ok p =>
    obtain ⟨w, vm1⟩ := p
    have frame1 := read_next_frame vm vm1 w hrn
    simp only [hrn] at h
    cases hop : Op.tryFrom w with
    | error e => simp [hop] at h
    | ok op =>
      simp only [hop] at h
      cases op
      all_goals first
      | (cases h; exact frame1)
      | -- one-operand opcodes
        (cases ha : vm1.read_argument with
         | error e => simp [ha] at h
         | ok q =>
           obtain ⟨a, vm2⟩ := q
           have frame2 := read_argument_frame vm1 vm2 a ha
           simp only [ha] at h
           first
           | (cases h
              exact ⟨frame2.1.trans frame1.1, frame2.2.1.trans frame1.2.1,
                frame2.2.2.trans frame1.2.2⟩)
           | -- two-operand opcodes
             (cases hb : vm2.read_argument with
              | error e => simp [hb] at h
              | ok q2 =>
                obtain ⟨b, vm3⟩ := q2
                have frame3 := read_argument_frame vm2 vm3 b hb
                simp only [hb] at h
                first
                | (cases h
                   exact ⟨(frame3.1.trans frame2.1).trans frame1.1,
                     (frame3.2.1.trans frame2.2.1).trans frame1.2.1,
                     (frame3.2.2.trans frame2.2.2).trans frame1.2.2⟩)
                | -- three-operand opcodes
                  (cases hc : vm3.read_argument with
                   | error e => simp [hc] at h
                   | ok q3 =>
                     obtain ⟨c, vm4⟩ := q3
                     have frame4 := read_argument_frame vm3 vm4 c hc
                     simp only [hc] at h
                     cases h
                     exact ⟨((frame4.1.trans frame3.1).trans frame2.1).trans frame1.1,
                       ((frame4.2.1.trans frame3.2.1).trans frame2.2.1).trans frame1.2.1,
                       ((frame4.2.2.trans frame3.2.2).trans frame2.2.2).trans frame1.2.2⟩)))

/-! ### C5: Add and Mult reduce modulo 32768 -/

/-- C5: for all Words `b`, `c` in `0..=32767`, `Add` stores
`(b + c) % 32768` and `Mult` stores `(b * c) % 32768` in the
destination register, even when the mathematical sum or product exceeds
16 bits (the source truncates the product to 16 bits first, which
agrees with reduction modulo 32768 because `32768 ∣ 65536`). -/
theorem add_mult_reduce_mod_32768 (vm : VM) (input : List Nat) (a : Nat) (bArg cArg : Arg)
    (hb : vm.get_value bArg ≤ 32767) (hc : vm.get_value cArg ≤ 32767) :
    vm.exec ⟨.Add, some (.Register a), some bArg, some cArg⟩ input =
      .next ⟨{ vm with
        registers := vm.registers.set a ((vm.get_value bArg + vm.get_value cArg) % 32768) },
        [], input⟩ ∧
    vm.exec ⟨.Mult, some (.Register a), some bArg, some cArg⟩ input =
      .next ⟨{ vm with
        registers := vm.registers.set a ((vm.get_value bArg * vm.get_value cArg) % 32768) },
        [], input⟩ := by
  refine ⟨rfl, ?_⟩
  have hmm : vm.get_value bArg * vm.get_value cArg % 65536 % 32768 =
      vm.get_value bArg * vm.get_value cArg % 32768 :=
    Nat.mod_mod_of_dvd _ (by norm_num)
  simp only [VM.exec]
  rw [hmm]

/-- Witness for C5 at `b = c = 30000`: `60000 % 32768 = 27232` and
`900000000 % 32768 = 26880`. -/
theorem add_mult_reduce_mod_32768_witness :
    VM.exec ⟨[], [0, 0, 0, 0, 0, 0, 0, 0], [], 0⟩
        ⟨.Add, some (.Register 0), some (.Literal 30000), some (.Literal 30000)⟩ [] =
      .next ⟨⟨[], [27232, 0, 0, 0, 0, 0, 0, 0], [], 0⟩, [], []⟩ ∧
    VM.exec ⟨[], [0, 0, 0, 0, 0, 0, 0, 0], [], 0⟩
        ⟨.Mult, some (.Register 0), some (.Literal 30000), some (.Literal 30000)⟩ [] =
      .next ⟨⟨[], [26880, 0, 0, 0, 0, 0, 0, 0], [], 0⟩, [], []⟩ :=
  add_mult_reduce_mod_32768 ⟨[], [0, 0, 0, 0, 0, 0, 0, 0], [], 0⟩ [] 0
    (.Literal 30000) (.Literal 30000) (by decide) (by decide)

/-! ### C2: Mod semantics and the division-by-zero panic -/

/-- C2 (amended): when the resolved divisor is zero, `Mod` hits Rust's
remainder-by-zero panic — the process crashes instead of returning an
error to the caller; otherwise `register(a) = b mod c`. -/
theorem mod_zero_panics (vm : VM) (input : List Nat) (a : Nat) (bArg cArg : Arg) :
    (vm.get_value cArg = 0 →
      vm.exec ⟨.Mod, some (.Register a), some bArg, some cArg⟩ input =
        .panic "attempt to calculate the remainder with a divisor of zero") ∧
    (vm.get_value cArg ≠ 0 →
      vm.exec ⟨.Mod, some (.Register a), some bArg, some cArg⟩ input =
        .next ⟨{ vm with
          registers := vm.registers.set a (vm.get_value bArg % vm.get_value cArg) },
          [], input⟩) := by
  constructor <;> intro h <;> simp only [VM.exec] <;> [rw [if_pos h]; rw [if_neg h]]

/-- Witness for C2 (amended): `5 mod 0` panics, `5 mod 3` stores 2. -/
theorem mod_zero_panics_witness :
    VM.exec ⟨[], [0, 0, 0, 0, 0, 0, 0, 0], [], 0⟩
        ⟨.Mod, some (.Register 0), some (.Literal 5), some (.Literal 0)⟩ [] =
      .panic "attempt to calculate the remainder with a divisor of zero" ∧
    VM.exec ⟨[], [0, 0, 0, 0, 0, 0, 0, 0], [], 0⟩
        ⟨.Mod, some (.Register 0), some (.Literal 5), some (.Literal 3)⟩ [] =
      .next ⟨⟨[], [2, 0, 0, 0, 0, 0, 0, 0], [], 0⟩, [], []⟩ :=
  ⟨(mod_zero_panics ⟨[], [0, 0, 0, 0, 0, 0, 0, 0], [], 0⟩ [] 0
      (.Literal 5) (.Literal 0)).1 (by decide),
   (mod_zero_panics ⟨[], [0, 0, 0, 0, 0, 0, 0, 0], [], 0⟩ [] 0
      (.Literal 5) (.Literal 3)).2 (by decide)⟩

/-- The state after loading the 8-byte image
`[11,0, 0,128, 5,0, 0,0]`, i.e. the program `Mod r0, 5, 0` followed by
`Halt`: words `[11, 32768, 5, 0]`. -/
def modZeroVM : VM :=
  ⟨[11, 32768, 5, 0] ++ List.replicate (MEMORY_SIZE - 4) 0, List.replicate 8 0, [], 0⟩

/-- Counterexample to C2 as stated: running the loaded program
`Mod r0, 5, 0` does not surface an error result — the process panics
(`RunResult.panic`, a crash), which is a different outcome from
`RunResult.error`. -/
theorem mod_zero_counterexample :
    VM.load [11, 0, 0, 128, 5, 0, 0, 0] = .ok modZeroVM ∧
    modZeroVM.run 1 [] [] = .panic "attempt to calculate the remainder with a divisor of zero" := by
  refine ⟨rfl, ?_⟩
  have h1 : (1 : Nat) = 0 + 1 := rfl
  have hlen : modZeroVM.memory.length = MEMORY_SIZE := length_pad [11, 32768, 5, 0] (by decide)
  have hstep : modZeroVM.step [] =
      .panic "attempt to calculate the remainder with a divisor of zero" := rfl
  rw [h1, run_succ_eq, if_pos (by rw [hlen]; decide), hstep]

/-! ### C3: Out never fails; values above 255 are truncated -/

/-- C3 (code bug): `Out` with resolved value 256 does not fail with a
`NonCharacterValue`-style error; `char::try_from(value as u8)` truncates
to the low byte first and is infallible (`From<u8> for char`), so the
source's error branch is dead and the character with code
`256 % 256 = 0` is written. -/
theorem out_256_truncates_no_error :
    VM.exec ⟨[], [0, 0, 0, 0, 0, 0, 0, 0], [], 0⟩
        ⟨.Out, some (.Literal 256), none, none⟩ [] =
      .next ⟨⟨[], [0, 0, 0, 0, 0, 0, 0, 0], [], 0⟩, [0], []⟩ := rfl

/-! ### C7: Pop underflows, Ret terminates -/

/-- C7: with an empty stack, `Pop` fails with the stack-underflow error
while `Ret` terminates the run normally — both as a `halt` step outcome
and, when the next opcode word is 18 (`Ret`), as a successful `run`
result. -/
theorem pop_underflow_ret_halts (vm : VM) (input output : List Nat) (fuel a : Nat)
    (hstack : vm.stack = []) :
    vm.exec ⟨.Pop, some (.Register a), none, none⟩ input =
      .error "called pop on an empty stack" ∧
    vm.exec ⟨.Ret, none, none, none⟩ input = .halt ⟨vm, [], input⟩ ∧
    (vm.memory.get? vm.pc = some 18 →
      vm.run (fuel + 1) input output = .ok { vm with pc := vm.pc + 1 } output) := by
  refine ⟨?_, ?_, ?_⟩
  · simp only [VM.exec, hstack]
  · simp only [VM.exec, hstack]
  · intro h18
    have hlt : vm.pc < vm.memory.length := by
      by_contra hge
      rw [List.get?_eq_none.mpr (Nat.le_of_not_lt hge)] at h18
      cases h18
    have hstep : vm.step input = .halt ⟨{ vm with pc := vm.pc + 1 }, [], input⟩ := by
      unfold VM.step VM.read_instruction VM.read_next
      rw [h18]
      simp only [Op.tryFrom, VM.exec, hstack]
    rw [run_succ_eq, if_pos hlt, hstep]
    simp only [List.append_nil]

/-- Witness for C7 on the one-word program `[18]` (`Ret`) with an empty
stack. -/
theorem pop_underflow_ret_halts_witness :
    VM.exec ⟨[18], [], [], 0⟩ ⟨.Pop, some (.Register 0), none, none⟩ [] =
      .error "called pop on an empty stack" ∧
    VM.exec ⟨[18], [], [], 0⟩ ⟨.Ret, none, none, none⟩ [] = .halt ⟨⟨[18], [], [], 0⟩, [], []⟩ ∧
    VM.run ⟨[18], [], [], 0⟩ 1 [] [] = .ok ⟨[18], [], [], 1⟩ [] := by
  have h := pop_underflow_ret_halts ⟨[18], [], [], 0⟩ [] [] 0 0 rfl
  exact ⟨h.1, h.2.1, h.2.2 rfl⟩

/-! ### Decode computation helpers -/

/-- Resolving an operand ignores everything but the registers. -/
theorem get_value_update_pc (vm : VM) (p : Nat) (arg : Arg) :
    VM.get_value { vm with pc := p } arg = vm.get_value arg := by
  cases arg <;> rfl

/-- Resolving an operand ignores the stack and `pc`. -/
theorem get_value_update_pc_stack (vm : VM) (p : Nat) (st : List Nat) (arg : Arg) :
    VM.get_value { vm with pc := p, stack := st } arg = vm.get_value arg := by
  cases arg <;> rfl

/-- Word values `0..=32767` decode to literal operands. -/
theorem argTryFrom_literal (v : Nat) (h : v ≤ 32767) : Arg.tryFrom v = .ok (.Literal v) := by
  unfold Arg.tryFrom
  rw [if_pos h]

/-- Word values `32768 + r` for `r < 8` decode to register operands. -/
theorem argTryFrom_register (r : Nat) (h : r < 8) : Arg.tryFrom (32768 + r) = .ok (.Register r) := by
  unfold Arg.tryFrom
  rw [if_neg (by omega), if_pos (by omega)]
  have hr : 32768 + r - 32768 = r := by omega
  rw [hr]

/-! ### C8: Jt and Jf branch exactly on their conditions -/

/-- C8: a decoded `Jt` (opcode word 7) sets `pc` to `value(b)` exactly
when `value(a) ≠ 0`, and a decoded `Jf` (opcode word 8) exactly when
`value(a) = 0`; in the remaining cases `pc` advances to `vm.pc + 3`,
just past the opcode and its two operand words. -/
theorem jt_jf_branch_iff (vm : VM) (input : List Nat) (aw bw : Nat) (aArg bArg : Arg)
    (ha : vm.memory.get? (vm.pc + 1) = some aw) (hta : Arg.tryFrom aw = .ok aArg)
    (hb : vm.memory.get? (vm.pc + 2) = some bw) (htb : Arg.tryFrom bw = .ok bArg) :
    (vm.memory.get? vm.pc = some 7 →
      vm.step input =
        .next ⟨{ vm with
          pc := if vm.get_value aArg = 0 then vm.pc + 3 else vm.get_value bArg }, [], input⟩) ∧
    (vm.memory.get? vm.pc = some 8 →
      vm.step input =
        .next ⟨{ vm with
          pc := if vm.get_value aArg = 0 then vm.get_value bArg else vm.pc + 3 }, [], input⟩) := by
  constructor <;> intro hop <;>
    simp only [VM.step, VM.read_instruction, VM.read_next, VM.read_argument, hop, ha, hb,
      Op.tryFrom, hta, htb, VM.exec, get_value_update_pc, ne_eq] <;>
    by_cases hz : vm.get_value aArg = 0 <;>
    simp only [hz, if_pos, if_neg, ite_true, ite_false, not_true, not_false_iff]

/-- Witness for C8: memory `[7, 1, 100]` (`Jt 1 100`) jumps to 100,
memory `[8, 1, 100]` (`Jf 1 100`) falls through to `pc = 3`. -/
theorem jt_jf_branch_iff_witness :
    VM.step ⟨[7, 1, 100], [0, 0, 0, 0, 0, 0, 0, 0], [], 0⟩ [] =
      .next ⟨⟨[7, 1, 100], [0, 0, 0, 0, 0, 0, 0, 0], [], 100⟩, [], []⟩ ∧
    VM.step ⟨[8, 1, 100], [0, 0, 0, 0, 0, 0, 0, 0], [], 0⟩ [] =
      .next ⟨⟨[8, 1, 100], [0, 0, 0, 0, 0, 0, 0, 0], [], 3⟩, [], []⟩ := by
  constructor
  · have h := (jt_jf_branch_iff ⟨[7, 1, 100], [0, 0, 0, 0, 0, 0, 0, 0], [], 0⟩ [] 1 100
      (.Literal 1) (.Literal 100) rfl rfl rfl rfl).1 rfl
    simpa using h
  · have h := (jt_jf_branch_iff ⟨[8, 1, 100], [0, 0, 0, 0, 0, 0, 0, 0], [], 0⟩ [] 1 100
      (.Literal 1) (.Literal 100) rfl rfl rfl rfl).2 rfl
    simpa using h

/-! ### C9: Push then Pop round-trips -/

/-- C9: with `Push v` (opcode word 2, literal `v`) at `pc` and
`Pop r` (opcode word 3, register word `32768 + r`) immediately after,
stepping twice leaves register `r` equal to `v` and the stack exactly
as it was before the `Push`. -/
theorem push_pop_roundtrip (vm : VM) (input : List Nat) (v r : Nat)
    (hv : v ≤ 32767) (hr : r < 8) (hlen : vm.registers.length = 8)
    (h0 : vm.memory.get? vm.pc = some 2)
    (h1 : vm.memory.get? (vm.pc + 1) = some v)
    (h2 : vm.memory.get? (vm.pc + 2) = some 3)
    (h3 : vm.memory.get? (vm.pc + 3) = some (32768 + r)) :
    vm.step input = .next ⟨{ vm with pc := vm.pc + 2, stack := v :: vm.stack }, [], input⟩ ∧
    VM.step { vm with pc := vm.pc + 2, stack := v :: vm.stack } input =
      .next ⟨{ vm with pc := vm.pc + 4, registers := vm.registers.set r v }, [], input⟩ ∧
    (vm.registers.set r v).getD r 0 = v ∧
    ({ vm with pc := vm.pc + 4, registers := vm.registers.set r v } : VM).stack = vm.stack := by
  refine ⟨?_, ?_, ?_, rfl⟩
  · simp only [VM.step, VM.read_instruction, VM.read_next, VM.read_argument, h0, h1,
      Op.tryFrom, argTryFrom_literal v hv, VM.exec, get_value_update_pc]
    rfl
  · simp only [VM.step, VM.read_instruction, VM.read_next, VM.read_argument, h2, h3,
      Op.tryFrom, argTryFrom_register r hr, VM.exec]
  · rw [List.getD_eq_getD_get?, List.get?_set_eq_of_lt v (by omega)]
    rfl

/-- Witness for C9: program `[2, 42, 3, 32773]` (`Push 42; Pop r5`). -/
theorem push_pop_roundtrip_witness :
    VM.step ⟨[2, 42, 3, 32773], [0, 0, 0, 0, 0, 0, 0, 0], [7], 0⟩ [] =
      .next ⟨⟨[2, 42, 3, 32773], [0, 0, 0, 0, 0, 0, 0, 0], [42, 7], 2⟩, [], []⟩ ∧
    VM.step ⟨[2, 42, 3, 32773], [0, 0, 0, 0, 0, 0, 0, 0], [42, 7], 2⟩ [] =
      .next ⟨⟨[2, 42, 3, 32773], [0, 0, 0, 0, 0, 42, 0, 0], [7], 4⟩, [], []⟩ ∧
    ([0, 0, 0, 0, 0, 42, 0, 0] : List Nat).getD 5 0 = 42 := by
  have h := push_pop_roundtrip ⟨[2, 42, 3, 32773], [0, 0, 0, 0, 0, 0, 0, 0], [7], 0⟩ [] 42 5
    (by decide) (by decide) rfl rfl (by decide) (by decide) (by decide)
  exact ⟨h.1, h.2.1, h.2.2.1⟩

/-! ### C10: register-destination opcodes only touch their destination -/

/-- Writing index `d` and reading it back reproduces the written list,
in bounds or out. -/
theorem set_getD_self (l : List Nat) (d v : Nat) :
    l.set d v = l.set d ((l.set d v).getD d 0) := by
  by_cases hd : d < l.length
  · rw [List.getD_eq_getD_get?, List.get?_set_eq_of_lt v hd]
    rfl
  · rw [List.set_eq_of_length_le (Nat.le_of_not_lt hd),
      List.set_eq_of_length_le (Nat.le_of_not_lt hd)]

/-- C10: a successfully executed register-destination opcode (`Set`,
`Add`, `Mult`, `Mod`, `And`, `Or`, `Not`, `Rmem`, `Eq`, `Gt`) leaves
memory and the stack untouched, and changes at most register `d` (the
decoded destination): the new register file is the old one overwritten
only at `d`. -/
theorem regdest_frame (vm vm1 : VM) (inst : Instruction) (input : List Nat) (s : StepOut)
    (d : Nat)
    (hdec : vm.read_instruction = .ok (inst, vm1))
    (hop : regDestOp inst.op = true)
    (ha : inst.a = some (.Register d))
    (hex : vm1.exec inst input = .next s) :
    s.vm.memory = vm.memory ∧ s.vm.stack = vm.stack ∧
    s.vm.registers = vm.registers.set d (s.vm.registers.getD d 0) := by
  have hframe := read_instruction_frame vm vm1 inst hdec
  obtain ⟨op, a, b, c⟩ := inst
  dsimp only at ha hop
  subst ha
  cases op <;>
    first
    | exact absurd hop (by decide)
    | (rcases b with _ | b' <;> rcases c with _ | c' <;>
       simp only [VM.exec] at hex <;>
       (try split at hex) <;>
       first
       | exact StepResult.noConfusion hex
       | (injection hex with hs
          subst hs
          refine ⟨hframe.1, hframe.2.2, ?_⟩
          dsimp only
          rw [hframe.2.1]
          exact set_getD_self _ _ _))

/-- Machine for the C10 witness: program `Add r0, 7, 8`, one stacked
word, registers `[1..8]`. -/
def addFrameVM : VM := ⟨[9, 32768, 7, 8], [1, 2, 3, 4, 5, 6, 7, 8], [9], 0⟩

/-- The C10 witness machine after decoding (`pc` past the operands). -/
def addFrameVM1 : VM := ⟨[9, 32768, 7, 8], [1, 2, 3, 4, 5, 6, 7, 8], [9], 4⟩

/-- The C10 witness machine after the `Add`: `r0 = (7+8) % 32768`. -/
def addFrameS : StepOut := ⟨⟨[9, 32768, 7, 8], [15, 2, 3, 4, 5, 6, 7, 8], [9], 4⟩, [], []⟩

/-- Witness for C10 on `Add r0, 7, 8`: memory and stack survive and the
register file is the old one overwritten at index 0 only. -/
theorem regdest_frame_witness :
    addFrameS.vm.memory = addFrameVM.memory ∧ addFrameS.vm.stack = addFrameVM.stack ∧
    addFrameS.vm.registers = addFrameVM.registers.set 0 (addFrameS.vm.registers.getD 0 0) :=
  regdest_frame addFrameVM addFrameVM1
    ⟨.Add, some (.Register 0), some (.Literal 7), some (.Literal 8)⟩ [] addFrameS 0
    rfl rfl rfl rfl

/-! ### C1: which opcodes keep registers inside 15 bits -/

/-- `optValLe` on a present operand bounds its resolved value. -/
theorem optValLe_some (vm : VM) (arg : Arg) (k : Nat)
    (h : optValLe vm (some arg) k = true) : vm.get_value arg ≤ k := by
  simpa [optValLe] using h

/-- Overwriting one register with a 15-bit value keeps the whole file
15-bit. -/
theorem regsInRange_set (l : List Nat) (d v : Nat) (hl : regsInRange l = true)
    (hv : v ≤ 32767) : regsInRange (l.set d v) = true := by
  simp only [regsInRange, List.all_eq_true] at hl ⊢
  intro x hx
  rcases List.mem_or_eq_of_mem_set hx with h | h
  · exact hl x h
  · subst h; exact decide_eq_true hv

/-- The 15-bit complement `!(!0x7FFF | v)` of a 16-bit value is 15-bit:
bit 15 of `32768 ||| v` is set, so the complement clears it. -/
theorem not_le_mask (v : Nat) (hv : v ≤ 65535) : 65535 ^^^ (32768 ||| v) ≤ 32767 := by
  have h := @Nat.lt_pow_two_of_testBit 15 (65535 ^^^ (32768 ||| v)) ?_
  · omega
  · intro i hi
    rw [Nat.testBit_xor, Nat.testBit_or]
    rcases Nat.lt_or_ge i 16 with h16 | h16
    · have hieq : i = 15 := by omega
      subst hieq
      have t1 : Nat.testBit 65535 15 = true := by decide
      have t2 : Nat.testBit 32768 15 = true := by decide
      rw [t1, t2]
      simp
    · have hpow : (65536 : Nat) ≤ 2 ^ i := by
        calc (65536 : Nat) = 2 ^ 16 := by norm_num
        _ ≤ 2 ^ i := Nat.pow_le_pow_right (by norm_num) h16
      have t1 : Nat.testBit 65535 i = false := Nat.testBit_eq_false_of_lt (by omega)
      have t2 : Nat.testBit 32768 i = false := Nat.testBit_eq_false_of_lt (by omega)
      have t3 : Nat.testBit v i = false := Nat.testBit_eq_false_of_lt (by omega)
      rw [t1, t2, t3]
      rfl

/-- Bitwise and against a 15-bit value is 15-bit. -/
theorem and_le_mask (x y : Nat) (hy : y ≤ 32767) : x &&& y ≤ 32767 := by
  have e : (2 : Nat) ^ 15 = 32768 := by norm_num
  have h2 : y < 2 ^ 15 := by omega
  have h := Nat.and_lt_two_pow x h2
  omega

/-- Bitwise or of two 15-bit values is 15-bit. -/
theorem or_le_mask (x y : Nat) (hx : x ≤ 32767) (hy : y ≤ 32767) : x ||| y ≤ 32767 := by
  have e : (2 : Nat) ^ 15 = 32768 := by norm_num
  have h := @Nat.or_lt_two_pow x y 15 (by omega) (by omega)
  omega

/-- C1 (amended): the arithmetic and bitwise opcodes (`Add`, `Mult`,
`Mod`, `And`, `Or`, `Not`, `Eq`, `Gt`) do keep every register inside
`0..=32767`, provided the registers already were and the resolved
operands are 15-bit.  (The unrestricted claim fails: memory holds raw
16-bit image words, and `Rmem`/`In` copy such values into registers —
see the counterexample.) -/
theorem arith_bitwise_preserve_word_range (vm : VM) (inst : Instruction) (input : List Nat)
    (s : StepOut)
    (hreg : regsInRange vm.registers = true)
    (hb : optValLe vm inst.b 32767 = true)
    (hc : optValLe vm inst.c 32767 = true)
    (hop : inst.op = .Add ∨ inst.op = .Mult ∨ inst.op = .Mod ∨ inst.op = .And ∨
      inst.op = .Or ∨ inst.op = .Not ∨ inst.op = .Eq ∨ inst.op = .Gt)
    (hex : vm.exec inst input = .next s) :
    regsInRange s.vm.registers = true := by
  obtain ⟨op, a, b, c⟩ := inst
  dsimp only at hop hb hc
  rcases a with _ | aa
  · rcases hop with h | h | h | h | h | h | h | h <;> subst h <;>
      rcases b with _ | barg <;> rcases c with _ | carg <;>
      simp only [VM.exec] at hex <;> exact StepResult.noConfusion hex
  rcases aa with v | reg
  · rcases hop with h | h | h | h | h | h | h | h <;> subst h <;>
      rcases b with _ | barg <;> rcases c with _ | carg <;>
      simp only [VM.exec] at hex <;> exact StepResult.noConfusion hex
  · rcases hop with h | h | h | h | h | h | h | h <;> subst h <;>
      rcases b with _ | barg <;> rcases c with _ | carg <;>
      simp only [VM.exec] at hex <;>
      (try split at hex) <;>
      first
      | exact StepResult.noConfusion hex
      | (injection hex with hs
         subst hs
         refine regsInRange_set _ _ _ hreg ?_
         first
         | omega
         | exact and_le_mask _ _ (optValLe_some vm carg 32767 hc)
         | exact or_le_mask _ _ (optValLe_some vm barg 32767 hb)
             (optValLe_some vm carg 32767 hc)
         | exact not_le_mask _ (le_trans (optValLe_some vm barg 32767 hb) (by norm_num))
         | (rename_i hzero
            exact le_trans (Nat.le_of_lt (Nat.mod_lt _ (Nat.pos_of_ne_zero hzero)))
              (optValLe_some vm carg 32767 hc)))

/-- Witness for C1 (amended): `Add r0, 20000, 20000` from zeroed
registers yields the in-range file `[7232, 0, ..., 0]`. -/
theorem arith_bitwise_preserve_word_range_witness :
    regsInRange [7232, 0, 0, 0, 0, 0, 0, 0] = true :=
  arith_bitwise_preserve_word_range ⟨[], [0, 0, 0, 0, 0, 0, 0, 0], [], 0⟩
    ⟨.Add, some (.Register 0), some (.Literal 20000), some (.Literal 20000)⟩ []
    ⟨⟨[], [7232, 0, 0, 0, 0, 0, 0, 0], [], 0⟩, [], []⟩
    rfl rfl rfl (.inl rfl) rfl

/-- The machine loaded from the 10-byte image
`[15,0, 0,128, 4,0, 0,0, 0,128]`: the program `Rmem r0, 4` whose data
word at address 4 is 32768. -/
def overflowVM : VM :=
  ⟨[15, 32768, 4, 0, 32768] ++ List.replicate (MEMORY_SIZE - 5) 0, List.replicate 8 0, [], 0⟩

/-- Counterexample to C1 as stated: after loading, memory cell 1 (the
register-encoded operand word) already holds 32768 > 32767, and after
the first opcode (`Rmem r0, 4`) completes, register 0 holds 32768 as
well — register and memory contents are not always 15-bit. -/
theorem word_range_counterexample :
    VM.load [15, 0, 0, 128, 4, 0, 0, 0, 0, 128] = .ok overflowVM ∧
    overflowVM.step [] =
      .next ⟨⟨overflowVM.memory, [32768, 0, 0, 0, 0, 0, 0, 0], [], 3⟩, [], []⟩ ∧
    ¬ (([32768, 0, 0, 0, 0, 0, 0, 0] : List Nat).getD 0 0 ≤ 32767) ∧
    ¬ (overflowVM.memory.getD 1 0 ≤ 32767) :=
  ⟨rfl, rfl, by decide, by decide⟩

/-! ### C4: out-of-range addresses and jump targets -/

/-- C4 (amended): a program counter at or past the end of memory makes
the `run` loop exit *normally* (a successful `Ok` result, not an
error), while an out-of-range `Rmem` or `Wmem` address causes an
index-out-of-bounds panic (a crash, not a returned error). -/
theorem oob_access_behaviour (vm : VM) (input output : List Nat) (fuel reg : Nat)
    (aArg bArg : Arg) :
    (vm.memory.length ≤ vm.pc → vm.run (fuel + 1) input output = .ok vm output) ∧
    (vm.memory.length ≤ vm.get_value bArg →
      vm.exec ⟨.Rmem, some (.Register reg), some bArg, none⟩ input =
        .panic "index out of bounds") ∧
    (vm.memory.length ≤ vm.get_value aArg →
      vm.exec ⟨.Wmem, some aArg, some bArg, none⟩ input = .panic "index out of bounds") := by
  refine ⟨?_, ?_, ?_⟩
  · intro h
    rw [run_succ_eq, if_neg (Nat.not_lt.mpr h)]
  · intro h
    simp only [VM.exec]
    rw [List.get?_eq_none.mpr h]
  · intro h
    simp only [VM.exec]
    rw [if_neg (Nat.not_lt.mpr h)]

/-- Witness for C4 (amended) on the one-cell memory `[5]` with
`pc = 3`: the run exits with `ok`, and `Rmem`/`Wmem` at address 9
panic. -/
theorem oob_access_behaviour_witness :
    VM.run ⟨[5], [0, 0, 0, 0, 0, 0, 0, 0], [], 3⟩ 1 [] [] =
      .ok ⟨[5], [0, 0, 0, 0, 0, 0, 0, 0], [], 3⟩ [] ∧
    VM.exec ⟨[5], [0, 0, 0, 0, 0, 0, 0, 0], [], 3⟩
        ⟨.Rmem, some (.Register 0), some (.Literal 9), none⟩ [] =
      .panic "index out of bounds" ∧
    VM.exec ⟨[5], [0, 0, 0, 0, 0, 0, 0, 0], [], 3⟩
        ⟨.Wmem, some (.Literal 9), some (.Literal 1), none⟩ [] =
      .panic "index out of bounds" := by
  have h := oob_access_behaviour ⟨[5], [0, 0, 0, 0, 0, 0, 0, 0], [], 3⟩ [] [] 0 0
    (.Literal 9) (.Literal 9)
  exact ⟨h.1 (by decide), h.2.1 (by decide), h.2.2 (by decide)⟩

/-- The machine loaded from the 4-byte image `[6,0, 255,127]`: the
program `Jmp 32767`. -/
def jmpEndVM : VM :=
  ⟨[6, 32767] ++ List.replicate (MEMORY_SIZE - 2) 0, List.replicate 8 0, [], 0⟩

/-- Counterexample to C4 as stated: `Jmp 32767` moves the program
counter to 32767, which is *not* a valid memory index
(`MEMORY_SIZE = 32767`), yet the run terminates with a successful `ok`
result — the invalid target is silently absorbed by the loop condition
instead of being surfaced as a failure. -/
theorem oob_jump_counterexample :
    VM.load [6, 0, 255, 127] = .ok jmpEndVM ∧
    jmpEndVM.run 2 [] [] = .ok ⟨jmpEndVM.memory, jmpEndVM.registers, [], 32767⟩ [] ∧
    ¬ (32767 < MEMORY_SIZE) := by
  have hlen : jmpEndVM.memory.length = MEMORY_SIZE := length_pad [6, 32767] (by decide)
  have hstep : jmpEndVM.step [] =
      .next ⟨⟨jmpEndVM.memory, jmpEndVM.registers, [], 32767⟩, [], []⟩ := rfl
  refine ⟨rfl, ?_, by decide⟩
  rw [show (2 : Nat) = 1 + 1 from rfl, run_succ_eq,
    if_pos (show jmpEndVM.pc < jmpEndVM.memory.length by rw [hlen]; decide), hstep]
  show VM.run ⟨jmpEndVM.memory, jmpEndVM.registers, [], 32767⟩ 1 [] ([] ++ []) =
    .ok ⟨jmpEndVM.memory, jmpEndVM.registers, [], 32767⟩ []
  rw [show (1 : Nat) = 0 + 1 from rfl, run_succ_eq,
    if_neg (show ¬ ((⟨jmpEndVM.memory, jmpEndVM.registers, [], 32767⟩ : VM).pc <
      (⟨jmpEndVM.memory, jmpEndVM.registers, [], 32767⟩ : VM).memory.length) by
        show ¬ (32767 < jmpEndVM.memory.length)
        rw [hlen]
        decide)]
  rfl

/-! ### C6: odd-length images -/

/-- While capacity remains for the residual chunk, an odd byte count
makes the pairing loop fail. -/
theorem loadPairs_odd (cap : Nat) : ∀ bytes : List Nat, bytes.length % 2 = 1 →
    bytes.length < 2 * cap → loadPairs bytes cap = .error "failed to load file" := by
  induction cap with
  | zero => intro bytes h1 h2; omega
  | succ n ih =>
    intro bytes h1 h2
    rcases bytes with _ | ⟨lo, rest⟩
    · simp at h1
    rcases rest with _ | ⟨hi, rest2⟩
    · rfl
    · have h1' : rest2.length % 2 = 1 := by
        simp only [List.length_cons] at h1
        omega
      have h2' : rest2.length < 2 * n := by
        simp only [List.length_cons] at h2
        omega
      have hrec := ih rest2 h1' h2'
      simp only [loadPairs, hrec]

/-- With no capacity left, the pairing loop stops at once. -/
theorem loadPairs_zero (bytes : List Nat) : loadPairs bytes 0 = .ok [] := by
  rcases bytes with _ | ⟨a, rest⟩
  · rfl
  · rcases rest with _ | ⟨b, rest2⟩ <;> rfl

/-- When the byte buffer covers the whole capacity, the pairing loop
succeeds no matter how the buffer ends: the zip stops at capacity and
silently discards the overflow, a residual single byte included. -/
theorem loadPairs_replicate (cap : Nat) : ∀ m : Nat, 2 * cap ≤ m →
    loadPairs (List.replicate m 0) cap = .ok (List.replicate cap 0) := by
  induction cap with
  | zero => intro m h; exact loadPairs_zero _
  | succ n ih =>
    intro m h
    obtain ⟨k, rfl⟩ : ∃ k, m = k + 2 := ⟨m - 2, by omega⟩
    have hr : List.replicate (k + 2) 0 = 0 :: 0 :: List.replicate k 0 := rfl
    rw [hr]
    have hrec := ih k (by omega)
    simp only [loadPairs, hrec]
    have hz : (0 <<< 8 ||| 0 : Nat) = 0 := by decide
    rw [hz, List.replicate_succ]

/-- C6 (amended): every byte buffer of odd length *below twice the
memory capacity* fails to load (the residual byte is reached by the
zip), before any execution occurs; in particular a 3-byte image fails.
Odd buffers of length `≥ 2 * MEMORY_SIZE + 1` instead load successfully
— see the counterexample. -/
theorem odd_image_load_fails (bytes : List Nat) (h1 : bytes.length % 2 = 1)
    (h2 : bytes.length < 2 * MEMORY_SIZE) :
    VM.load bytes = .error "failed to load file" := by
  unfold VM.load
  rw [loadPairs_odd MEMORY_SIZE bytes h1 h2]

/-- Witness for C6 (amended): the 3-byte image fails to load. -/
theorem odd_image_load_fails_witness :
    VM.load [0, 0, 0] = .error "failed to load file" :=
  odd_image_load_fails [0, 0, 0] (by decide) (by decide)

/-- Loading succeeded (the claim under test says it must not for odd
lengths). -/
def loadSucceeds (r : Except String VM) : Bool :=
  match r with
  | .ok _ => true
  | .error _ => false

/-- When the pairing loop succeeds, `load` returns the machine whose
memory is the decoded words padded with zeros. -/
theorem load_of_loadPairs_ok (bytes ws : List Nat)
    (h : loadPairs bytes MEMORY_SIZE = .ok ws) :
    VM.load bytes =
      .ok { VM.new with memory := ws ++ List.replicate (MEMORY_SIZE - ws.length) 0 } := by
  unfold VM.load
  rw [h]

/-- Counterexample to C6 as stated: a 65535-byte image has odd length,
yet `load` succeeds — the pairing zip stops when the 32767 memory cells
are filled (after 65534 bytes) and the residual unpaired byte is
silently dropped, never reaching the error check. -/
theorem odd_long_image_loads :
    (List.replicate 65535 (0 : Nat)).length % 2 = 1 ∧
    loadSucceeds (VM.load (List.replicate 65535 0)) = true := by
  constructor
  · rw [List.length_replicate]
  · rw [load_of_loadPairs_ok _ _ (loadPairs_replicate MEMORY_SIZE 65535 (by decide))]
    rfl

end Synacor
